import Mathlib

/-!
Shallow embedding of the spawn orchestration core of the `isolate` library
(`src/context.rs`, `src/namespace/mod.rs`, `src/namespace/user.rs`,
`src/namespace/mount.rs`).

Effectful Rust code is modelled by pure functions that take an explicit
environment describing the outcome of each system call and that return,
next to the value, the list of observable events (system calls, file
writes, configurator invocations) in the order the code performs them.
Fallible operations return `Option Err` (`none` = `Ok(())`) or a
`RunResult`.
-/

namespace Isolate

/-- Error values surfaced by the library (`src/error.rs` plus the error
kinds produced by `nix`/`std::io` calls; the payloads distinguish
individual errors so that "returns that exact error" is expressible). -/
inductive Err where
  | stackAllocation
  | cloneFailed (errno : Nat)
  | childWait
  | childContinue
  | mountFailed
  | pathEncoding
  | ioFailed (code : Nat)
  | custom (tag : Nat)
deriving DecidableEq, Repr

/-- Signals used by the orchestration (`SIGCHLD`, `SIGSTOP`, `SIGCONT`). -/
inductive Signal where
  | SIGCHLD
  | SIGSTOP
  | SIGCONT
deriving DecidableEq, Repr

/-- The kernel namespace clone bits plus `CLONE_VM`
(`nix::sched::CloneFlags` members used by the crate). -/
inductive CloneFlag where
  | newuser
  | newpid
  | newns
  | newipc
  | newuts
  | newnet
  | newcgroup
  | vm
deriving DecidableEq, Repr

/-- A `CloneFlags` bitflags value is a set of clone bits. -/
abbrev CloneFlags := Finset CloneFlag

/-- Address-space sharing mode (`enum Share` in `src/context.rs`). -/
inductive Share where
  | Shared
  | Private
deriving DecidableEq, Repr

/-- Abstract model of one boxed namespace spec stored in a `Context`.
`cloneFlag` is the spec's `Namespace::clone_flag()`; the remaining
fields record the outcome of the spec's `prepare`, external
`configure`/`cleanup` and internal `configure`/`cleanup` operations
(`none` = success, `some e` = that operation fails with `e`). -/
structure SpecModel where
  cloneFlag : Option CloneFlags
  prepare : Option Err
  extConfigure : Option Err
  extCleanup : Option Err
  intConfigure : Option Err
  intCleanup : Option Err
deriving DecidableEq

/-- A namespace spec that succeeds everywhere and contributes no clone bit. -/
def SpecModel.inert : SpecModel :=
  ⟨none, none, none, none, none, none⟩

/-- Default stack size, 8 MiB (`DEFAULT_STACK_SIZE` in `src/context.rs`). -/
def DEFAULT_STACK_SIZE : Nat := 8 * 1024 * 1024

/-- `struct Context` of `src/context.rs`: ordered namespace specs, an
optional name, the stack size and the sharing mode. -/
structure Context where
  namespaces : List SpecModel
  name : Option String
  stack_size : Nat
  shared : Share
deriving DecidableEq

/-- `Context::new()`. -/
def Context.new : Context :=
  { namespaces := [], name := none, stack_size := DEFAULT_STACK_SIZE,
    shared := Share.Shared }

/-- `Context::private()`: select a private address space. -/
def Context.«private» (c : Context) : Context :=
  { c with shared := Share.Private }

/-- `Context::stack_size(size)`: set the size of the child stack
(named `stackSize` because the field projection already uses the
source's `stack_size` name). -/
def Context.stackSize (c : Context) (size : Nat) : Context :=
  { c with stack_size := size }

/-- `Context::push(ns)`: push a new configuration into the context. -/
def Context.push (c : Context) (ns : SpecModel) : Context :=
  { c with namespaces := c.namespaces ++ [ns] }

/-- `Context::with(ns)`: append a namespace spec, returning the context. -/
def Context.«with» (c : Context) (ns : SpecModel) : Context :=
  c.push ns

/-- Collect a list of optional flag sets into one flag set: the union of
all sets that are present (the `flat_map`/`collect` idiom used by
`Context::spawn` and `Namespace for Context`). -/
def collectFlags (l : List (Option CloneFlags)) : CloneFlags :=
  (l.filterMap id).foldr (fun s acc => s ∪ acc) ∅

/-- `Namespace::clone_flag` for `Context`: the union of the clone flags
of all the namespace specs, wrapped in `Some`. -/
def Context.clone_flag (c : Context) : Option CloneFlags :=
  some (collectFlags (c.namespaces.map SpecModel.cloneFlag))

/-- `Share::addrspace`: `CLONE_VM` iff the context is `Shared`. -/
def Share.addrspace : Share → Option CloneFlags
  | Share.Private => none
  | Share.Shared => some {CloneFlag.vm}

/-- The clone flag set computed in `Context::spawn`:
`vec![self.clone_flag(), shared.addrspace()]` flattened and collected. -/
def Context.spawnFlags (c : Context) : CloneFlags :=
  collectFlags [c.clone_flag, c.shared.addrspace]

/-- Observable events of the orchestration, in program order: which
configurator ran (by its position in the namespace list) and which
system calls were made. -/
inductive Event where
  | prepare (i : Nat)
  | stackAlloc (size : Nat)
  | cloneCall (flags : CloneFlags) (sig : Option Signal)
  | extConfigure (i : Nat)
  | waitStopped
  | kill (s : Signal)
  | extCleanup (i : Nat)
  | waitReap
  | stackFree (size : Nat)
  | sigstopSelf
  | intConfigure (i : Nat)
  | userCallable
  | logged
  | intCleanup (i : Nat)
deriving DecidableEq

/-- Shared shape of the four configurator loops in `src/context.rs`
(`for config in ... { config.op()? }`): run `op` on each spec in list
order, stopping at the first error; record an event per invocation.
`i` is the index of the first spec of `l` in the original list. -/
def runPhase (op : SpecModel → Option Err) (mk : Nat → Event) :
    Nat → List SpecModel → Option Err × List Event
  | _, [] => (none, [])
  | i, s :: rest =>
    match op s with
    | some e => (some e, [mk i])
    | none =>
      let r := runPhase op mk (i + 1) rest
      (r.1, mk i :: r.2)

/-- Number of specs visited by `runPhase` (all of them, or up to and
including the first failing one). -/
def phaseLen (op : SpecModel → Option Err) : List SpecModel → Nat
  | [] => 0
  | s :: rest =>
    match op s with
    | some _ => 1
    | none => phaseLen op rest + 1

/-- `impl Namespace for Context`: run `prepare` on each spec in
insertion order, stopping at the first error. -/
def Context.prepare (c : Context) : Option Err × List Event :=
  runPhase SpecModel.prepare Event.prepare 0 c.namespaces

/-- `struct ContextOuter`: the collection of external configurations. -/
structure ContextOuter where
  configs : List SpecModel
deriving DecidableEq

/-- `struct ContextInner`: the collection of internal configurations. -/
structure ContextInner where
  configs : List SpecModel
deriving DecidableEq

/-- `Split for Context`: each spec is split into its external and its
internal configurator, preserving list order on both sides. -/
def Context.split (c : Context) : ContextOuter × ContextInner :=
  (⟨c.namespaces⟩, ⟨c.namespaces⟩)

/-- `ExternalConfig for ContextOuter::configure`: forward loop with
early exit on the first error. -/
def ContextOuter.configure (o : ContextOuter) : Option Err × List Event :=
  runPhase SpecModel.extConfigure Event.extConfigure 0 o.configs

/-- `ExternalConfig for ContextOuter::cleanup`: forward loop with early
exit on the first error (the source iterates `&mut self.configs` in
insertion order, not in reverse). -/
def ContextOuter.cleanup (o : ContextOuter) : Option Err × List Event :=
  runPhase SpecModel.extCleanup Event.extCleanup 0 o.configs

/-- `InternalConfig for ContextInner::configure`: forward loop with
early exit on the first error. -/
def ContextInner.configure (o : ContextInner) : Option Err × List Event :=
  runPhase SpecModel.intConfigure Event.intConfigure 0 o.configs

/-- `InternalConfig for ContextInner::cleanup`: forward loop with early
exit on the first error (the source iterates `&mut self.configs` in
insertion order, not in reverse). -/
def ContextInner.cleanup (o : ContextInner) : Option Err × List Event :=
  runPhase SpecModel.intCleanup Event.intCleanup 0 o.configs

/-- Result of running a piece of the orchestration: a value, an error
return, or a Rust panic (an `expect`/`panic!` firing). -/
inductive RunResult (α : Type) where
  | ok (a : α)
  | err (e : Err)
  | panicked (msg : String)
deriving DecidableEq

/-- How the child process terminates: normal exit with a code, or
`abort()` (from the panic hook or an explicit `abort()` call). -/
inductive ChildOutcome where
  | exited (code : Int)
  | aborted
deriving DecidableEq, Repr

/-- `ContextInner::wrap`: the closure the child runs. It stops itself
with `SIGSTOP`, runs the internal configuration (printing the error and
calling `abort()` on failure), runs the user callable, then runs
`self.cleanup().expect(..)` — a cleanup failure panics, and the
installed panic hook turns the panic into `abort()`; on success the
closure returns 0. `stopFail` is the outcome of the `kill(getpid(),
SIGSTOP)` call, whose failure also panics (hence aborts). -/
def ContextInner.wrap (inner : ContextInner) (stopFail : Bool) :
    ChildOutcome × List Event :=
  if stopFail then
    (ChildOutcome.aborted, [Event.sigstopSelf])
  else
    match inner.configure with
    | (some _, cevs) => (ChildOutcome.aborted, Event.sigstopSelf :: (cevs ++ [Event.logged]))
    | (none, cevs) =>
      match inner.cleanup with
      | (some _, clevs) =>
        (ChildOutcome.aborted,
          Event.sigstopSelf :: (cevs ++ [Event.userCallable] ++ clevs))
      | (none, clevs) =>
        (ChildOutcome.exited 0,
          Event.sigstopSelf :: (cevs ++ [Event.userCallable] ++ clevs))

/-- The child stack: `struct Stack` of `src/context.rs`, reduced to the
size bookkeeping that the mapped region carries. -/
structure Stack where
  size : Nat
deriving DecidableEq, Repr

/-- `Stack::round_to_pages(size)`: `size + (page_size - (size %
page_size))`. Note that a size that is already a multiple of the page
size grows by one further page. -/
def Stack.round_to_pages (pageSize size : Nat) : Nat :=
  size + (pageSize - size % pageSize)

/-- Outcomes of the system calls made by `Context::spawn` and the
`Child` handle; the per-spec outcomes live in each `SpecModel`. -/
structure SpawnEnv where
  pageSize : Nat
  stackFail : Option Err
  cloneFail : Option Err
  childPid : Nat
  waitStoppedFail : Option Err
  killContFail : Option Err
  dropWaitFail : Option Err
deriving DecidableEq, Repr

/-- `Stack::new(size, share)`: round the size to pages and `mmap` an
anonymous region (read+write, stack-flagged, shared per the context);
an `mmap` failure or a `-1`/null return surfaces as an error. -/
def Stack.new (env : SpawnEnv) (size : Nat) (share : Share) : Except Err Stack :=
  match env.stackFail with
  | some e => Except.error e
  | none => Except.ok ⟨Stack.round_to_pages env.pageSize size⟩

/-- `Child::cont`: `waitpid(pid, WSTOPPED)` then `kill(pid, SIGCONT)`,
each propagating its error. -/
def contRun (env : SpawnEnv) : Option Err × List Event :=
  match env.waitStoppedFail with
  | some e => (some e, [Event.waitStopped])
  | none =>
    match env.killContFail with
    | some e => (some e, [Event.waitStopped, Event.kill Signal.SIGCONT])
    | none => (none, [Event.waitStopped, Event.kill Signal.SIGCONT])

/-- `Drop for Child` with the outcome of the final `waitpid` supplied:
`self.config.cleanup().expect("Cleaning up child context")` then
`waitpid(pid, None).expect("Waiting for child")`; either failure is a
panic, not an error return. -/
def childDropWith (config : ContextOuter) (waitRes : Option Err) :
    RunResult Unit × List Event :=
  match config.cleanup with
  | (some _, evs) => (RunResult.panicked "Cleaning up child context", evs)
  | (none, evs) =>
    match waitRes with
    | some _ => (RunResult.panicked "Waiting for child", evs ++ [Event.waitReap])
    | none => (RunResult.ok (), evs ++ [Event.waitReap])

/-- State of the one child process as the kernel sees it: `reapable`
is true while the child has not yet been reaped by a `waitpid`. -/
structure OsState where
  reapable : Bool
deriving DecidableEq, Repr

/-- A `waitpid(pid, None)` call: reaps the child exactly once; a second
call fails (`ECHILD`). -/
def waitpidReap (os : OsState) : Option Err × OsState :=
  if os.reapable then (none, ⟨false⟩) else (some Err.childWait, os)

/-- `struct Child`: the child pid, the external configurators and the
owned stack. -/
structure Child where
  tid : Nat
  config : ContextOuter
  stack : Stack
deriving DecidableEq

/-- `Drop for Child` against the kernel state: external cleanup
(`expect`), then a reaping `waitpid` (`expect`). -/
def Child.dropRun (c : Child) (os : OsState) :
    RunResult Unit × OsState × List Event :=
  match c.config.cleanup with
  | (some _, evs) => (RunResult.panicked "Cleaning up child context", os, evs)
  | (none, evs) =>
    match waitpidReap os with
    | (some _, os2) => (RunResult.panicked "Waiting for child", os2, evs ++ [Event.waitReap])
    | (none, os2) => (RunResult.ok (), os2, evs ++ [Event.waitReap])

/-- `Child::wait(self)`: `waitpid(pid, None)?` — and then, because
`self` was moved into `wait` and is neither returned nor forgotten,
`Drop for Child` runs before `wait` returns. A panic raised by that
drop replaces the return value. The `Nat` result stands for the
`WaitStatus` (`0` = exited normally). -/
def Child.wait (c : Child) (os : OsState) :
    RunResult Nat × OsState × List Event :=
  match waitpidReap os with
  | (w, os1) =>
    match c.dropRun os1 with
    | (RunResult.panicked m, os2, devs) =>
      (RunResult.panicked m, os2, Event.waitReap :: devs)
    | (_, os2, devs) =>
      match w with
      | some e => (RunResult.err e, os2, Event.waitReap :: devs)
      | none => (RunResult.ok 0, os2, Event.waitReap :: devs)

/-- `Context::spawn(child)`: prepare every spec; compute the clone
flags; allocate the stack; split the specs; `clone` with `SIGCHLD`;
run the external configuration; build the `Child` handle; stop/continue
handshake. Early error returns drop the live locals, which unmaps the
stack (`Stack::drop`) and, once the `Child` handle exists, runs `Drop
for Child`. The returned trace lists the parent-side events in program
order. -/
def Context.spawn (env : SpawnEnv) (c : Context) : RunResult Child × List Event :=
  match c.prepare with
  | (some e, pevs) => (RunResult.err e, pevs)
  | (none, pevs) =>
    let flags := c.spawnFlags
    match Stack.new env c.stack_size c.shared with
    | Except.error e => (RunResult.err e, pevs)
    | Except.ok stack =>
      let external := (c.split).1
      match env.cloneFail with
      | some e =>
        (RunResult.err e,
          pevs ++ [Event.stackAlloc stack.size,
                   Event.cloneCall flags (some Signal.SIGCHLD),
                   Event.stackFree stack.size])
      | none =>
        match external.configure with
        | (some e, cevs) =>
          (RunResult.err e,
            pevs ++ [Event.stackAlloc stack.size,
                     Event.cloneCall flags (some Signal.SIGCHLD)]
                 ++ cevs ++ [Event.stackFree stack.size])
        | (none, cevs) =>
          let child : Child := ⟨env.childPid, external, stack⟩
          match contRun env with
          | (some e, tevs) =>
            match childDropWith external env.dropWaitFail with
            | (RunResult.panicked m, devs) =>
              (RunResult.panicked m,
                pevs ++ [Event.stackAlloc stack.size,
                         Event.cloneCall flags (some Signal.SIGCHLD)]
                     ++ cevs ++ tevs ++ devs ++ [Event.stackFree stack.size])
            | (_, devs) =>
              (RunResult.err e,
                pevs ++ [Event.stackAlloc stack.size,
                         Event.cloneCall flags (some Signal.SIGCHLD)]
                     ++ cevs ++ tevs ++ devs ++ [Event.stackFree stack.size])
          | (none, tevs) =>
            (RunResult.ok child,
              pevs ++ [Event.stackAlloc stack.size,
                       Event.cloneCall flags (some Signal.SIGCHLD)]
                   ++ cevs ++ tevs)

/-- First error of a configurator loop, independent of the events. -/
def phaseRes (op : SpecModel → Option Err) : List SpecModel → Option Err
  | [] => none
  | s :: rest =>
    match op s with
    | some e => some e
    | none => phaseRes op rest

/-!
The `User` namespace spec (`src/namespace/user.rs`): parent-side writes
to `/proc/<pid>/{uid_map,setgroups,gid_map}`.
-/

/-- `struct User`. -/
structure User where
  map_root_user : Bool
  map_root_group : Bool
deriving DecidableEq, Repr

/-- `enum SetGroups`. -/
inductive SetGroups where
  | Allow
  | Deny
deriving DecidableEq, Repr

/-- `Display for SetGroups`: the exact bytes `format!("{}", self)`
produces — no trailing newline. -/
def SetGroups.display : SetGroups → String
  | SetGroups.Allow => "allow"
  | SetGroups.Deny => "deny"

/-- Path `format!("/proc/{}/setgroups", pid)`. -/
def setgroupsPath (pid : Nat) : String :=
  "/proc/" ++ Nat.repr pid ++ "/setgroups"

/-- Path `format!("/proc/{}/gid_map", pid)`. -/
def gidMapPath (pid : Nat) : String :=
  "/proc/" ++ Nat.repr pid ++ "/gid_map"

/-- Path `format!("/proc/{}/uid_map", pid)`. -/
def uidMapPath (pid : Nat) : String :=
  "/proc/" ++ Nat.repr pid ++ "/uid_map"

/-- Observable file operations of the `User` external configurator.
An event is recorded when the operation succeeds; a failure is carried
in the result instead. -/
inductive FileEvent where
  | openAppend (path : String)
  | writeBytes (path : String) (data : String)
deriving DecidableEq, Repr

/-- Outcomes of the file opens and writes `User` performs. -/
structure ProcEnv where
  openUidMapFail : Option Err
  writeUidMapFail : Option Err
  openSetgroupsFail : Option Err
  writeSetgroupsFail : Option Err
  openGidMapFail : Option Err
  writeGidMapFail : Option Err
deriving DecidableEq, Repr

/-- `SetGroups::write(child)`: open `/proc/<pid>/setgroups` in append
mode and `write_all` the `Display` bytes of `self`. -/
def SetGroups.write (env : ProcEnv) (sg : SetGroups) (pid : Nat) :
    Option Err × List FileEvent :=
  match env.openSetgroupsFail with
  | some e => (some e, [])
  | none =>
    match env.writeSetgroupsFail with
    | some e => (some e, [FileEvent.openAppend (setgroupsPath pid)])
    | none =>
      (none, [FileEvent.openAppend (setgroupsPath pid),
              FileEvent.writeBytes (setgroupsPath pid) sg.display])

/-- `User::set_root_user(child)`: open `/proc/<pid>/uid_map` in append
mode and `write_all(format!("0 {} 1", uid))` — no trailing newline. -/
def User.set_root_user (env : ProcEnv) (pid uid : Nat) :
    Option Err × List FileEvent :=
  match env.openUidMapFail with
  | some e => (some e, [])
  | none =>
    match env.writeUidMapFail with
    | some e => (some e, [FileEvent.openAppend (uidMapPath pid)])
    | none =>
      (none, [FileEvent.openAppend (uidMapPath pid),
              FileEvent.writeBytes (uidMapPath pid) ("0 " ++ Nat.repr uid ++ " 1")])

/-- `User::set_root_group(child)`: `SetGroups::Deny.write(child)?` —
the deny write comes first and its failure aborts the whole step — then
open `/proc/<pid>/gid_map` in append mode and
`write_all(format!("0 {} 1", gid))` — no trailing newline. -/
def User.set_root_group (env : ProcEnv) (pid gid : Nat) :
    Option Err × List FileEvent :=
  match SetGroups.write env SetGroups.Deny pid with
  | (some e, wevs) => (some e, wevs)
  | (none, wevs) =>
    match env.openGidMapFail with
    | some e => (some e, wevs)
    | none =>
      match env.writeGidMapFail with
      | some e => (some e, wevs ++ [FileEvent.openAppend (gidMapPath pid)])
      | none =>
        (none, wevs ++ [FileEvent.openAppend (gidMapPath pid),
                        FileEvent.writeBytes (gidMapPath pid)
                          ("0 " ++ Nat.repr gid ++ " 1")])

/-- `Namespace for User::external_config(child)`: `set_root_user` if
`map_root_user`, then `set_root_group` if `map_root_group`, each
propagating its error. -/
def User.external_config (env : ProcEnv) (u : User) (pid uid gid : Nat) :
    Option Err × List FileEvent :=
  match (if u.map_root_user then User.set_root_user env pid uid else (none, [])) with
  | (some e, uevs) => (some e, uevs)
  | (none, uevs) =>
    match (if u.map_root_group then User.set_root_group env pid gid else (none, [])) with
    | (res, gevs) => (res, uevs ++ gevs)

/-!
The `Mount` spec (`src/namespace/mount.rs`): the child-side `mount(2)`
wrapper and its cleanup.
-/

/-- The `MS_*` mount flags used by the builder. -/
inductive MsFlag where
  | bind
  | recurse
  | remount
  | rdonly
  | nodev
  | nosuid
  | noexec
  | noatime
  | nodiratime
  | relatime
  | strictatime
  | dirsync
  | synchronous
  | silent
  | mandlock
  | move
  | propShared
  | propPrivate
  | propSlave
  | unbindable
deriving DecidableEq, Repr

/-- A `MsFlags` bitflags value is a set of `MS_*` bits. -/
abbrev MsFlags := Finset MsFlag

/-- `struct Mount`: mount specification plus the `mounted` slot that
records the canonicalized target of a completed mount. -/
structure Mount where
  src : Option String
  target : String
  fstype : Option String
  flags : Option MsFlags
  mk_target : Bool
  umount : Bool
  mounted : Option String
deriving DecidableEq

/-- `Mount::new(src, target, fstype)`. -/
def Mount.new (src target fstype : String) : Mount :=
  ⟨some src, target, some fstype, none, false, false, none⟩

/-- `Mount::bind(src, target)`. -/
def Mount.bind (src target : String) : Mount :=
  ⟨some src, target, none, some {MsFlag.bind}, false, false, none⟩

/-- `Mount::recursive_bind(src, target)`. -/
def Mount.recursive_bind (src target : String) : Mount :=
  ⟨some src, target, none, some {MsFlag.bind, MsFlag.recurse}, false, false, none⟩

/-- `Mount::make_target_dir()`. -/
def Mount.make_target_dir (m : Mount) : Mount :=
  { m with mk_target := true }

/-- `Mount::unmount()`: set the unmount-on-drop bit. -/
def Mount.unmountOnDrop (m : Mount) : Mount :=
  { m with umount := true }

/-- Observable operations of `Mount::mount` and its cleanup. An event
records that the call was made (whether it then succeeded is carried by
the environment/result). -/
inductive MountEvent where
  | mkdirAll (path : String)
  | mountSys (src : Option String) (target : String) (fstype : Option String)
  | canonicalize (target : String)
  | umountSys (path : String)
deriving DecidableEq, Repr

/-- Whether an event is the `mount(2)` call. -/
def MountEvent.isMountSys : MountEvent → Bool
  | MountEvent.mountSys _ _ _ => true
  | _ => false

/-- Outcomes of the filesystem calls `Mount` makes. `canonResult` is
the canonicalized target returned when `canonicalize` succeeds. -/
structure MountEnv where
  nixPathFail : Option Err
  createDirFail : Option Err
  mountFail : Option Err
  canonFail : Option Err
  canonResult : String
  umountFail : Option Err
deriving DecidableEq, Repr

/-- `Mount::mount(&mut self)`: encode the target path, `create_dir_all`
if `mk_target`, call `mount(2)`, then canonicalize the target and store
it into `self.mounted`; each step propagates its error, and `mounted`
is written only after every step succeeded. -/
def Mount.mount (env : MountEnv) (m : Mount) :
    Option Err × Mount × List MountEvent :=
  match env.nixPathFail with
  | some e => (some e, m, [])
  | none =>
    let mkEvs := if m.mk_target then [MountEvent.mkdirAll m.target] else []
    match (if m.mk_target then env.createDirFail else none) with
    | some e => (some e, m, mkEvs)
    | none =>
      let evs := mkEvs ++ [MountEvent.mountSys m.src m.target m.fstype]
      match env.mountFail with
      | some e => (some e, m, evs)
      | none =>
        let evs2 := evs ++ [MountEvent.canonicalize m.target]
        match env.canonFail with
        | some e => (some e, m, evs2)
        | none => (none, { m with mounted := some env.canonResult }, evs2)

/-- `InternalConfig for Mount::configure`: just `self.mount()`. -/
def Mount.configure (env : MountEnv) (m : Mount) :
    Option Err × Mount × List MountEvent :=
  Mount.mount env m

/-- `InternalConfig for Mount::cleanup`: `umount(path)` iff `mounted`
is populated and the `umount` bit is set; the spec value (in
particular `mounted`) is left unchanged. -/
def Mount.cleanup (env : MountEnv) (m : Mount) :
    Option Err × Mount × List MountEvent :=
  match m.mounted, m.umount with
  | some p, true => (env.umountFail, m, [MountEvent.umountSys p])
  | _, _ => (none, m, [])

/-!
Concrete instances used by the claim counterexamples and witnesses.
-/

/-- A spawn environment in which every system call succeeds;
page size 4096, child pid 7. -/
def envOk : SpawnEnv :=
  ⟨4096, none, none, 7, none, none, none⟩

/-- A spec contributing the `NEWUSER` clone bit and succeeding
everywhere. -/
def specUser : SpecModel :=
  ⟨some {CloneFlag.newuser}, none, none, none, none, none⟩

/-- Context for the C1 witness: one `NEWUSER` spec and one inert spec,
shared address space, small stack. -/
def ctxC1 : Context :=
  ⟨[specUser, SpecModel.inert], none, 100, Share.Shared⟩

/-- A spec whose external `configure` fails with `custom 3`. -/
def specExtConfFail : SpecModel :=
  ⟨some {CloneFlag.newuser}, none, some (Err.custom 3), none, none, none⟩

/-- Context for C3: a single spec whose external configuration fails. -/
def ctxC3 : Context :=
  ⟨[specExtConfFail], none, 100, Share.Shared⟩

/-- A spec whose internal `cleanup` fails with `custom 5`. -/
def specIntCleanFail : SpecModel :=
  ⟨none, none, none, none, none, some (Err.custom 5)⟩

/-- A spec whose external `cleanup` fails with `custom 6`. -/
def specExtCleanFail : SpecModel :=
  ⟨none, none, none, some (Err.custom 6), none, none⟩

/-- A spec whose `prepare` fails with `custom 7`. -/
def specPrepFail : SpecModel :=
  ⟨some {CloneFlag.newpid}, some (Err.custom 7), none, none, none, none⟩

/-- Context for C6: an inert spec, then a failing-prepare spec, then
another spec that must never be reached. -/
def ctxC6 : Context :=
  ⟨[SpecModel.inert, specPrepFail, specUser], none, 100, Share.Shared⟩

/-- A proc-file environment in which every open and write succeeds. -/
def envProcOk : ProcEnv :=
  ⟨none, none, none, none, none, none⟩

/-- A proc-file environment in which the write to `setgroups` fails. -/
def envProcDenyFail : ProcEnv :=
  ⟨none, none, none, some (Err.ioFailed 13), none, none⟩

/-- A mount environment in which every call succeeds and
canonicalization resolves the target to `/tmp/jail/proc`. -/
def envMountOk : MountEnv :=
  ⟨none, none, none, none, "/tmp/jail/proc", none⟩

/-- Mount spec for C9: recursive bind of `/proc`, unmounted on drop. -/
def mountC9 : Mount :=
  (Mount.recursive_bind "/proc" "/tmp/jail/proc").make_target_dir.unmountOnDrop

end Isolate

namespace Isolate

theorem collectFlags_nil : collectFlags [] = ∅ := rfl

theorem mem_collectFlags {l : List (Option CloneFlags)} {f : CloneFlag} :
    f ∈ collectFlags l ↔ ∃ s ∈ l, ∃ b, s = some b ∧ f ∈ b := by
  induction l with
  | nil => simp [collectFlags]
  | cons hd tl ih =>
    cases hd with
    | none =>
      simp only [collectFlags, List.filterMap_cons, id] at ih ⊢
      simp only [List.mem_cons]
      constructor
      · intro h
        rcases ih.mp h with ⟨s, hs, b, hb, hf⟩
        exact ⟨s, Or.inr hs, b, hb, hf⟩
      · rintro ⟨s, hs | hs, b, hb, hf⟩
        · subst hs
          cases hb
        · exact ih.mpr ⟨s, hs, b, hb, hf⟩
    | some u =>
      simp only [collectFlags, List.filterMap_cons, id] at *
      simp only [List.foldr_cons, Finset.mem_union, List.mem_cons]
      constructor
      · intro h
        rcases h with h | h
        · exact ⟨some u, Or.inl rfl, u, rfl, h⟩
        · rcases ih.mp h with ⟨s, hs, b, hb, hf⟩
          exact ⟨s, Or.inr hs, b, hb, hf⟩
      · rintro ⟨s, hs | hs, b, hb, hf⟩
        · subst hs
          cases hb
          exact Or.inl hf
        · exact Or.inr (ih.mpr ⟨s, hs, b, hb, hf⟩)

theorem mem_spawnFlags (c : Context) (f : CloneFlag) :
    f ∈ c.spawnFlags ↔
      (∃ s ∈ c.namespaces, ∃ b, s.cloneFlag = some b ∧ f ∈ b) ∨
      (f = CloneFlag.vm ∧ c.shared = Share.Shared) := by
  unfold Context.spawnFlags
  rw [mem_collectFlags]
  constructor
  · rintro ⟨s, hs, b, hb, hf⟩
    simp only [List.mem_cons, List.not_mem_nil, or_false] at hs
    rcases hs with hs | hs
    · subst hs
      unfold Context.clone_flag at hb
      cases hb
      left
      rcases mem_collectFlags.mp hf with ⟨o, ho, b2, hb2, hf2⟩
      rcases List.mem_map.mp ho with ⟨sp, hsp, rfl⟩
      exact ⟨sp, hsp, b2, hb2, hf2⟩
    · subst hs
      cases hsh : c.shared with
      | Shared =>
        rw [hsh] at hb
        unfold Share.addrspace at hb
        cases hb
        right
        refine ⟨?_, rfl⟩
        simpa using hf
      | Private =>
        rw [hsh] at hb
        unfold Share.addrspace at hb
        cases hb
  · rintro (⟨sp, hsp, b, hb, hf⟩ | ⟨hvm, hsh⟩)
    · refine ⟨c.clone_flag, by simp, collectFlags (c.namespaces.map SpecModel.cloneFlag), rfl, ?_⟩
      exact mem_collectFlags.mpr ⟨sp.cloneFlag, List.mem_map_of_mem _ hsp, b, hb, hf⟩
    · subst hvm
      refine ⟨c.shared.addrspace, by simp, {CloneFlag.vm}, ?_, by simp⟩
      rw [hsh]
      rfl

theorem runPhase_events (op : SpecModel → Option Err) (mk : Nat → Event) :
    ∀ (l : List SpecModel) (i : Nat),
      (runPhase op mk i l).2 = (List.range (phaseLen op l)).map (fun j => mk (i + j)) := by
  intro l
  induction l with
  | nil => intro i; simp [runPhase, phaseLen]
  | cons s rest ih =>
    intro i
    cases hop : op s with
    | some e => simp [runPhase, phaseLen, hop, List.range_succ]
    | none =>
      simp only [runPhase, phaseLen, hop]
      rw [ih (i + 1), List.range_succ_eq_map, List.map_cons, List.map_map]
      have hf : ((fun j => mk (i + j)) ∘ Nat.succ) = (fun j => mk (i + 1 + j)) := by
        funext j
        simp only [Function.comp]
        congr 1
        omega
      rw [hf]
      simp

theorem runPhase_res (op : SpecModel → Option Err) (mk : Nat → Event) :
    ∀ (l : List SpecModel) (i : Nat), (runPhase op mk i l).1 = phaseRes op l := by
  intro l
  induction l with
  | nil => intro i; simp [runPhase, phaseRes]
  | cons s rest ih =>
    intro i
    cases hop : op s with
    | some e => simp [runPhase, phaseRes, hop]
    | none => simp [runPhase, phaseRes, hop, ih]

theorem mem_runPhase_events {op : SpecModel → Option Err} {mk : Nat → Event}
    {l : List SpecModel} {i : Nat} {ev : Event} (h : ev ∈ (runPhase op mk i l).2) :
    ∃ j, ev = mk j := by
  rw [runPhase_events] at h
  rcases List.mem_map.mp h with ⟨j, _, rfl⟩
  exact ⟨i + j, rfl⟩

theorem mem_contRun_events {env : SpawnEnv} {ev : Event}
    (h : ev ∈ (contRun env).2) :
    ev = Event.waitStopped ∨ ev = Event.kill Signal.SIGCONT := by
  unfold contRun at h
  cases hw : env.waitStoppedFail with
  | some e =>
    rw [hw] at h
    exact Or.inl (by simpa using h)
  | none =>
    rw [hw] at h
    cases hk : env.killContFail with
    | some e => rw [hk] at h; simpa using h
    | none => rw [hk] at h; simpa using h

theorem mem_childDropWith_events {config : ContextOuter} {w : Option Err} {ev : Event}
    (h : ev ∈ (childDropWith config w).2) :
    (∃ j, ev = Event.extCleanup j) ∨ ev = Event.waitReap := by
  unfold childDropWith at h
  rcases hc : config.cleanup with ⟨r, evs⟩
  have hevs : evs = (runPhase SpecModel.extCleanup Event.extCleanup 0 config.configs).2 := by
    have := congrArg Prod.snd hc
    simpa [ContextOuter.cleanup] using this.symm
  cases r with
  | some e =>
    rw [hc] at h
    simp only at h
    subst hevs
    exact Or.inl (mem_runPhase_events h)
  | none =>
    rw [hc] at h
    have h2 : ev ∈ evs ++ [Event.waitReap] := by
      cases w with
      | some e => simpa using h
      | none => simpa using h
    simp only [List.mem_append] at h2
    rcases h2 with h2 | h2
    · subst hevs
      exact Or.inl (mem_runPhase_events h2)
    · simp only [List.mem_singleton] at h2
      exact Or.inr h2

/-- C10: each `Context` builder operation modifies exactly one field:
`private()` only sets the sharing mode to `Private`, `stack_size(n)`
only sets the stack size, `push`/`with` only append the given spec at
the end of the namespace list; all other fields keep their values. -/
theorem context_builder_frame (c : Context) (n : Nat) (s : SpecModel) :
    (c.«private».shared = Share.Private ∧
     c.«private».namespaces = c.namespaces ∧
     c.«private».name = c.name ∧
     c.«private».stack_size = c.stack_size) ∧
    ((c.stackSize n).stack_size = n ∧
     (c.stackSize n).namespaces = c.namespaces ∧
     (c.stackSize n).name = c.name ∧
     (c.stackSize n).shared = c.shared) ∧
    ((c.push s).namespaces = c.namespaces ++ [s] ∧
     (c.push s).name = c.name ∧
     (c.push s).stack_size = c.stack_size ∧
     (c.push s).shared = c.shared) ∧
    c.«with» s = c.push s :=
  ⟨⟨rfl, rfl, rfl, rfl⟩, ⟨rfl, rfl, rfl, rfl⟩, ⟨rfl, rfl, rfl, rfl⟩, rfl⟩

/-- C8 counterexample: for a requested size that is already a multiple
of the page size (page size 4096, request 4096), `round_to_pages`
returns 8192, one full page more than
`ceil(requested / page_size) * page_size = 4096`. -/
theorem round_to_pages_not_ceil :
    Stack.round_to_pages 4096 4096 = 8192 ∧
    ((4096 + 4096 - 1) / 4096) * 4096 = 4096 ∧
    Stack.round_to_pages 4096 4096 ≠ ((4096 + 4096 - 1) / 4096) * 4096 := by
  decide

/-- C8 (amended): the allocated size is
`size + (page_size - size % page_size)`, i.e. the smallest multiple of
the page size STRICTLY greater than the request — which is a page-size
multiple, is at least the request, stays within one extra page, and
agrees with `ceil(size / page_size) * page_size` exactly when the
request is not already a page multiple; `Stack::new` returns a stack of
exactly this size. -/
theorem round_to_pages_next_multiple (ps size : Nat) (h : 0 < ps) :
    Stack.round_to_pages ps size = ps * (size / ps + 1) ∧
    ps ∣ Stack.round_to_pages ps size ∧
    size < Stack.round_to_pages ps size ∧
    Stack.round_to_pages ps size ≤ size + ps ∧
    (¬ ps ∣ size →
      Stack.round_to_pages ps size = ((size + ps - 1) / ps) * ps) ∧
    (∀ (env : SpawnEnv) (sh : Share) (st : Stack), env.pageSize = ps →
      Stack.new env size sh = Except.ok st →
      st.size = Stack.round_to_pages ps size) := by
  have hdm := Nat.div_add_mod size ps
  have hmlt : size % ps < ps := Nat.mod_lt _ h
  have hmain : Stack.round_to_pages ps size = ps * (size / ps + 1) := by
    unfold Stack.round_to_pages
    rw [Nat.mul_add, Nat.mul_one]
    omega
  refine ⟨hmain, ?_, ?_, ?_, ?_, ?_⟩
  · rw [hmain]
    exact dvd_mul_right ps (size / ps + 1)
  · rw [hmain, Nat.mul_add, Nat.mul_one]
    omega
  · rw [hmain, Nat.mul_add, Nat.mul_one]
    omega
  · intro hnd
    have hr0 : 0 < size % ps :=
      Nat.pos_of_ne_zero (fun h0 => hnd (Nat.dvd_of_mod_eq_zero h0))
    have hexp : (size / ps + 1) * ps = ps * (size / ps) + ps := by ring
    have h1 : size + ps - 1 = (size % ps - 1) + (size / ps + 1) * ps := by
      omega
    have h2 : (size % ps - 1) / ps = 0 := Nat.div_eq_of_lt (by omega)
    have hq : (size + ps - 1) / ps = size / ps + 1 := by
      rw [h1, Nat.add_mul_div_right _ _ h, h2, Nat.zero_add]
    rw [hq, hmain]
    ring
  · intro env sh st hps hnew
    unfold Stack.new at hnew
    cases hsf : env.stackFail with
    | some e => rw [hsf] at hnew; cases hnew
    | none =>
      rw [hsf] at hnew
      injection hnew with h3
      rw [← h3, hps]

/-- C8 witness: instantiation of the amended rounding bound at page
size 4096 and request 5000. -/
theorem round_to_pages_next_multiple_witness :
    Stack.round_to_pages 4096 5000 = 4096 * (5000 / 4096 + 1) ∧
    4096 ∣ Stack.round_to_pages 4096 5000 ∧
    5000 < Stack.round_to_pages 4096 5000 :=
  ⟨(round_to_pages_next_multiple 4096 5000 (by decide)).1,
   (round_to_pages_next_multiple 4096 5000 (by decide)).2.1,
   (round_to_pages_next_multiple 4096 5000 (by decide)).2.2.1⟩

/-- C4 counterexample: with two specs, internal configure runs as
`[0, 1]` and internal cleanup also runs as `[0, 1]` — not the reverse
`[1, 0]` that the claim requires; external cleanup likewise. -/
theorem cleanup_not_reverse_counterexample :
    (ContextInner.configure ⟨[SpecModel.inert, SpecModel.inert]⟩).2
      = [Event.intConfigure 0, Event.intConfigure 1] ∧
    (ContextInner.cleanup ⟨[SpecModel.inert, SpecModel.inert]⟩).2
      = [Event.intCleanup 0, Event.intCleanup 1] ∧
    (ContextInner.cleanup ⟨[SpecModel.inert, SpecModel.inert]⟩).2
      ≠ [Event.intCleanup 1, Event.intCleanup 0] ∧
    (ContextOuter.cleanup ⟨[SpecModel.inert, SpecModel.inert]⟩).2
      ≠ [Event.extCleanup 1, Event.extCleanup 0] := by
  decide

/-- C4 (amended): all four configurator phases — internal and external
configure AND internal and external cleanup — iterate over the config
list in insertion order (index 0, 1, 2, …); the cleanup loops are not
reversed. -/
theorem cleanup_insertion_order (inner : ContextInner) (outer : ContextOuter) :
    inner.cleanup.2
      = (List.range (phaseLen SpecModel.intCleanup inner.configs)).map Event.intCleanup ∧
    outer.cleanup.2
      = (List.range (phaseLen SpecModel.extCleanup outer.configs)).map Event.extCleanup ∧
    inner.configure.2
      = (List.range (phaseLen SpecModel.intConfigure inner.configs)).map Event.intConfigure ∧
    outer.configure.2
      = (List.range (phaseLen SpecModel.extConfigure outer.configs)).map Event.extConfigure := by
  refine ⟨?_, ?_, ?_, ?_⟩
  · rw [ContextInner.cleanup, runPhase_events]
    simp
  · rw [ContextOuter.cleanup, runPhase_events]
    simp
  · rw [ContextInner.configure, runPhase_events]
    simp
  · rw [ContextOuter.configure, runPhase_events]
    simp

/-- C2: evaluating the `Child` lifecycle at a concrete reapable child.
`Child::wait` consumes `self`, so `Drop for Child` runs at the end of
`wait`; the drop calls `waitpid` a second time, which fails (`ECHILD`)
and its `expect("Waiting for child")` panics, so `wait` never returns
the status and two reap attempts are made. Dropping an un-waited child
does reap it (as claimed). -/
theorem child_wait_double_reap :
    ((Child.wait ⟨7, ⟨[]⟩, ⟨4096⟩⟩ ⟨true⟩).1
       = RunResult.panicked "Waiting for child") ∧
    ((Child.wait ⟨7, ⟨[]⟩, ⟨4096⟩⟩ ⟨true⟩).2.2.count Event.waitReap = 2) ∧
    ((Child.dropRun ⟨7, ⟨[]⟩, ⟨4096⟩⟩ ⟨true⟩).1 = RunResult.ok ()) ∧
    ((Child.dropRun ⟨7, ⟨[]⟩, ⟨4096⟩⟩ ⟨true⟩).2.1.reapable = false) := by
  decide

/-- C5 counterexample: a failing internal cleanup makes the child abort
instead of returning 0 (masking the user callable's result), and a
failing external cleanup makes `Drop for Child` panic the parent — both
via `expect`, so a cleanup failure IS fatal. -/
theorem cleanup_failure_fatal_counterexample :
    ((ContextInner.wrap ⟨[specIntCleanFail]⟩ false).1 ≠ ChildOutcome.exited 0) ∧
    ((ContextInner.wrap ⟨[specIntCleanFail]⟩ false).1 = ChildOutcome.aborted) ∧
    Event.userCallable ∈ (ContextInner.wrap ⟨[specIntCleanFail]⟩ false).2 ∧
    ((childDropWith ⟨[specExtCleanFail]⟩ none).1
       = RunResult.panicked "Cleaning up child context") := by
  decide

/-- C5 (amended): a cleanup failure is fatal, not merely logged: if the
internal configuration succeeded and some internal cleanup fails, the
child aborts (after the user callable has run), and if some external
cleanup fails, `Drop for Child` panics the parent regardless of how the
final `waitpid` would fare. -/
theorem cleanup_failure_panics (inner : ContextInner) (outer : ContextOuter)
    (e f : Err)
    (hc : inner.configure.1 = none)
    (hcl : inner.cleanup.1 = some e)
    (ho : outer.cleanup.1 = some f) :
    (inner.wrap false).1 = ChildOutcome.aborted ∧
    Event.userCallable ∈ (inner.wrap false).2 ∧
    ∀ w, (childDropWith outer w).1 = RunResult.panicked "Cleaning up child context" := by
  rcases hcfg : inner.configure with ⟨r1, cevs⟩
  rcases hclean : inner.cleanup with ⟨r2, clevs⟩
  rw [hcfg] at hc
  rw [hclean] at hcl
  simp only at hc hcl
  subst hc
  subst hcl
  rcases hout : outer.cleanup with ⟨r3, oevs⟩
  rw [hout] at ho
  simp only at ho
  subst ho
  refine ⟨?_, ?_, ?_⟩
  · simp [ContextInner.wrap, hcfg, hclean]
  · simp [ContextInner.wrap, hcfg, hclean]
  · intro w
    simp [childDropWith, hout]

/-- C5 witness: the amended statement instantiated at one spec whose
internal cleanup fails and one spec whose external cleanup fails. -/
theorem cleanup_failure_panics_witness :
    (ContextInner.wrap ⟨[specIntCleanFail]⟩ false).1 = ChildOutcome.aborted ∧
    (childDropWith ⟨[specExtCleanFail]⟩ none).1
      = RunResult.panicked "Cleaning up child context" :=
  ⟨(cleanup_failure_panics ⟨[specIntCleanFail]⟩ ⟨[specExtCleanFail]⟩
      (Err.custom 5) (Err.custom 6) (by decide) (by decide) (by decide)).1,
   (cleanup_failure_panics ⟨[specIntCleanFail]⟩ ⟨[specExtCleanFail]⟩
      (Err.custom 5) (Err.custom 6) (by decide) (by decide) (by decide)).2.2 none⟩

/-- C7 counterexample: at pid 1, gid 1000 with every file operation
succeeding, `set_root_group` writes exactly the bytes `"deny"` to
`setgroups` and `"0 1000 1"` to `gid_map` — neither write carries the
trailing newline the claim requires. -/
theorem setgroups_no_newline_counterexample :
    (User.set_root_group envProcOk 1 1000).2
      = [FileEvent.openAppend "/proc/1/setgroups",
         FileEvent.writeBytes "/proc/1/setgroups" "deny",
         FileEvent.openAppend "/proc/1/gid_map",
         FileEvent.writeBytes "/proc/1/gid_map" "0 1000 1"] ∧
    FileEvent.writeBytes "/proc/1/setgroups" "deny\n"
      ∉ (User.set_root_group envProcOk 1 1000).2 ∧
    FileEvent.writeBytes "/proc/1/gid_map" "0 1000 1\n"
      ∉ (User.set_root_group envProcOk 1 1000).2 := by
  decide

/-- C7 (amended): for every environment, pid and gid, `set_root_group`
first opens `/proc/<pid>/setgroups` and writes exactly the bytes
`"deny"` (no newline); if the deny write step fails, that error is
returned and no `gid_map` operation is attempted (every event touches
only the setgroups file); only after the deny write succeeds is
`/proc/<pid>/gid_map` opened for append and written with exactly
`"0 <gid> 1"` (no newline), the setgroups write strictly preceding the
gid_map write in the trace. -/
theorem set_root_group_order (env : ProcEnv) (pid gid : Nat) :
    (∀ e, (SetGroups.write env SetGroups.Deny pid).1 = some e →
       User.set_root_group env pid gid
         = (some e, (SetGroups.write env SetGroups.Deny pid).2) ∧
       ∀ ev ∈ (User.set_root_group env pid gid).2,
         ev = FileEvent.openAppend (setgroupsPath pid) ∨
         ev = FileEvent.writeBytes (setgroupsPath pid) "deny") ∧
    ((User.set_root_group env pid gid).1 = none →
       (User.set_root_group env pid gid).2
         = [FileEvent.openAppend (setgroupsPath pid),
            FileEvent.writeBytes (setgroupsPath pid) "deny",
            FileEvent.openAppend (gidMapPath pid),
            FileEvent.writeBytes (gidMapPath pid) ("0 " ++ Nat.repr gid ++ " 1")]) := by
  constructor
  · intro e he
    rcases hw : SetGroups.write env SetGroups.Deny pid with ⟨r, wevs⟩
    rw [hw] at he
    simp only at he
    subst he
    have hwevs : ∀ ev ∈ wevs,
        ev = FileEvent.openAppend (setgroupsPath pid) ∨
        ev = FileEvent.writeBytes (setgroupsPath pid) "deny" := by
      intro ev hev
      unfold SetGroups.write at hw
      cases ho : env.openSetgroupsFail with
      | some e2 =>
        rw [ho] at hw
        injection hw with hw1 hw2
        rw [← hw2] at hev
        simp at hev
      | none =>
        rw [ho] at hw
        cases hws : env.writeSetgroupsFail with
        | some e2 =>
          rw [hws] at hw
          injection hw with hw1 hw2
          rw [← hw2] at hev
          simp at hev
          exact Or.inl hev
        | none =>
          rw [hws] at hw
          injection hw with hw1 hw2
          rw [← hw2] at hev
          simp [SetGroups.display] at hev
          rcases hev with hev | hev
          · exact Or.inl hev
          · exact Or.inr hev
    constructor
    · unfold User.set_root_group
      rw [hw]
    · intro ev hev
      unfold User.set_root_group at hev
      rw [hw] at hev
      simp only at hev
      exact hwevs ev hev
  · intro hok
    unfold User.set_root_group at hok ⊢
    cases ho : env.openSetgroupsFail with
    | some e => simp [SetGroups.write, ho] at hok
    | none =>
      cases hws : env.writeSetgroupsFail with
      | some e => simp [SetGroups.write, ho, hws] at hok
      | none =>
        cases hog : env.openGidMapFail with
        | some e => simp [SetGroups.write, ho, hws, hog] at hok
        | none =>
          cases hwg : env.writeGidMapFail with
          | some e => simp [SetGroups.write, ho, hws, hog, hwg] at hok
          | none => simp [SetGroups.write, SetGroups.display, ho, hws, hog, hwg]

/-- C7 witness: the amended statement's success branch instantiated at
pid 2, gid 0 with every file operation succeeding. -/
theorem set_root_group_order_witness :
    (User.set_root_group envProcOk 2 0).2
      = [FileEvent.openAppend (setgroupsPath 2),
         FileEvent.writeBytes (setgroupsPath 2) "deny",
         FileEvent.openAppend (gidMapPath 2),
         FileEvent.writeBytes (gidMapPath 2) ("0 " ++ Nat.repr 0 ++ " 1")] :=
  (set_root_group_order envProcOk 2 0).2 (by decide)

/-- C9 counterexample: a recursive bind mount with `unmount_on_drop`,
all calls succeeding. The mount succeeds and records the canonicalized
path; cleanup then successfully releases it with `umount`, yet
`mounted` is STILL populated afterwards — so "populated iff a
successful mount has occurred and has not yet been released" fails. -/
theorem mounted_path_counterexample :
    ((Mount.mount envMountOk mountC9).1 = none) ∧
    ((Mount.mount envMountOk mountC9).2.1.mounted = some "/tmp/jail/proc") ∧
    ((Mount.cleanup envMountOk (Mount.mount envMountOk mountC9).2.1).1 = none) ∧
    (MountEvent.umountSys "/tmp/jail/proc"
       ∈ (Mount.cleanup envMountOk (Mount.mount envMountOk mountC9).2.1).2.2) ∧
    ((Mount.cleanup envMountOk (Mount.mount envMountOk mountC9).2.1).2.1.mounted
       = some "/tmp/jail/proc") ∧
    ¬ ((MountEvent.umountSys "/tmp/jail/proc"
          ∈ (Mount.cleanup envMountOk (Mount.mount envMountOk mountC9).2.1).2.2) →
       (Mount.cleanup envMountOk (Mount.mount envMountOk mountC9).2.1).2.1.mounted
          = none) := by
  decide

/-- C9 (amended): starting from an unmounted spec, `mounted` is
populated after `Mount::mount` iff every step (path encoding, optional
mkdir, the mount syscall, canonicalization) succeeded, and then holds
the canonicalized target; cleanup invokes `umount` on exactly the
recorded path iff `unmount_on_drop` is set and `mounted` is populated;
the mount syscall is attempted at most once per `mount` call and never
during cleanup; and cleanup leaves the spec value (in particular
`mounted`) unchanged, so the slot is NOT cleared on release. -/
theorem mount_state_invariant (env : MountEnv) (m : Mount)
    (h : m.mounted = none) :
    ((Mount.mount env m).1 = none →
       (Mount.mount env m).2.1.mounted = some env.canonResult) ∧
    ((Mount.mount env m).1 ≠ none → (Mount.mount env m).2.1.mounted = none) ∧
    ((Mount.mount env m).2.2.countP (fun ev => MountEvent.isMountSys ev) ≤ 1) ∧
    (∀ m2 : Mount,
       (Mount.cleanup env m2).2.1 = m2 ∧
       ((Mount.cleanup env m2).2.2.countP (fun ev => MountEvent.isMountSys ev) = 0) ∧
       (∀ p, MountEvent.umountSys p ∈ (Mount.cleanup env m2).2.2 ↔
          (m2.umount = true ∧ m2.mounted = some p))) := by
  have hcleanup : ∀ m2 : Mount,
      (Mount.cleanup env m2).2.1 = m2 ∧
      ((Mount.cleanup env m2).2.2.countP (fun ev => MountEvent.isMountSys ev) = 0) ∧
      (∀ p, MountEvent.umountSys p ∈ (Mount.cleanup env m2).2.2 ↔
         (m2.umount = true ∧ m2.mounted = some p)) := by
    intro m2
    unfold Mount.cleanup
    rcases hm : m2.mounted with _ | q
    · cases hu : m2.umount
      all_goals simp [MountEvent.isMountSys, hm, hu, List.countP_nil]
    · cases hu : m2.umount
      · simp [MountEvent.isMountSys, hm, hu, List.countP_nil]
      · refine ⟨rfl, ?_, ?_⟩
        · simp [MountEvent.isMountSys, List.countP_cons, List.countP_nil]
        · intro p
          simp only [List.mem_singleton, MountEvent.umountSys.injEq, hu,
            Option.some.injEq, true_and]
          exact eq_comm
  refine ⟨?_, ?_, ?_, hcleanup⟩
  all_goals
    unfold Mount.mount
    cases hnp : env.nixPathFail
    all_goals cases hmk : m.mk_target
    all_goals cases hcd : env.createDirFail
    all_goals cases hmf : env.mountFail
    all_goals cases hcf : env.canonFail
    all_goals simp [h, hmk, List.countP_cons, List.countP_nil, MountEvent.isMountSys]

/-- C9 witness: the amended invariant instantiated at the recursive
bind of `/proc` with every call succeeding. -/
theorem mount_state_invariant_witness :
    (Mount.mount envMountOk mountC9).2.1.mounted = some "/tmp/jail/proc" :=
  (mount_state_invariant envMountOk mountC9 (by decide)).1 (by decide)

theorem spawn_prepare_fail_eq (env : SpawnEnv) (c : Context) (e : Err)
    (h : c.prepare.1 = some e) :
    c.spawn env = (RunResult.err e, c.prepare.2) := by
  rcases hp : c.prepare with ⟨r, pevs⟩
  rw [hp] at h
  simp only at h
  subst h
  simp [Context.spawn, hp]

theorem spawn_trace_shape (env : SpawnEnv) (c : Context) :
    (c.spawn env).2 = c.prepare.2 ∨
    ∃ sz tail,
      (c.spawn env).2
        = c.prepare.2
            ++ (Event.stackAlloc sz
                :: Event.cloneCall c.spawnFlags (some Signal.SIGCHLD) :: tail) ∧
      ∀ ev ∈ tail,
        (∃ j, ev = Event.extConfigure j) ∨ (∃ j, ev = Event.extCleanup j) ∨
        ev = Event.waitStopped ∨ ev = Event.kill Signal.SIGCONT ∨
        ev = Event.waitReap ∨ ev = Event.stackFree sz := by
  rcases hp : c.prepare with ⟨r1, pevs⟩
  cases r1 with
  | some e =>
    left
    simp [Context.spawn, hp]
  | none =>
    cases hs : Stack.new env c.stack_size c.shared with
    | error e =>
      left
      simp [Context.spawn, hp, hs]
    | ok stack =>
      cases hcf : env.cloneFail with
      | some e =>
        right
        refine ⟨stack.size, [Event.stackFree stack.size], ?_, ?_⟩
        · simp [Context.spawn, hp, hs, hcf]
        · intro ev hev
          simp only [List.mem_singleton] at hev
          subst hev
          tauto
      | none =>
        rcases hcfg : (c.split).1.configure with ⟨r2, cevs⟩
        have hcev : ∀ ev ∈ cevs, ∃ j, ev = Event.extConfigure j := by
          intro ev hev
          have h2 : ev ∈ ((c.split).1.configure).2 := by rw [hcfg]; exact hev
          exact mem_runPhase_events (by simpa [ContextOuter.configure] using h2)
        cases r2 with
        | some e =>
          right
          refine ⟨stack.size, cevs ++ [Event.stackFree stack.size], ?_, ?_⟩
          · simp [Context.spawn, hp, hs, hcf, hcfg]
          · intro ev hev
            rcases List.mem_append.mp hev with hev | hev
            · exact Or.inl (hcev ev hev)
            · simp only [List.mem_singleton] at hev
              subst hev
              tauto
        | none =>
          rcases hct : contRun env with ⟨r3, tevs⟩
          have htev : ∀ ev ∈ tevs,
              ev = Event.waitStopped ∨ ev = Event.kill Signal.SIGCONT := by
            intro ev hev
            exact mem_contRun_events (by rw [hct]; exact hev)
          cases r3 with
          | none =>
            right
            refine ⟨stack.size, cevs ++ tevs, ?_, ?_⟩
            · simp [Context.spawn, hp, hs, hcf, hcfg, hct]
            · intro ev hev
              rcases List.mem_append.mp hev with hev | hev
              · exact Or.inl (hcev ev hev)
              · rcases htev ev hev with hev | hev
                all_goals subst hev
                all_goals tauto
          | some e =>
            rcases hd : childDropWith (c.split).1 env.dropWaitFail with ⟨r4, devs⟩
            have hdev : ∀ ev ∈ devs,
                (∃ j, ev = Event.extCleanup j) ∨ ev = Event.waitReap := by
              intro ev hev
              exact mem_childDropWith_events (by rw [hd]; exact hev)
            have htail : ∀ ev ∈ cevs ++ tevs ++ devs ++ [Event.stackFree stack.size],
                (∃ j, ev = Event.extConfigure j) ∨ (∃ j, ev = Event.extCleanup j) ∨
                ev = Event.waitStopped ∨ ev = Event.kill Signal.SIGCONT ∨
                ev = Event.waitReap ∨ ev = Event.stackFree stack.size := by
              intro ev hev
              simp only [List.mem_append, List.mem_singleton] at hev
              rcases hev with ((hev | hev) | hev) | hev
              · exact Or.inl (hcev ev hev)
              · rcases htev ev hev with hev | hev
                all_goals subst hev
                all_goals tauto
              · rcases hdev ev hev with hev | hev
                · exact Or.inr (Or.inl hev)
                · subst hev; tauto
              · subst hev; tauto
            cases r4 with
            | ok a =>
              right
              exact ⟨stack.size, cevs ++ tevs ++ devs ++ [Event.stackFree stack.size],
                by simp [Context.spawn, hp, hs, hcf, hcfg, hct, hd], htail⟩
            | err e2 =>
              right
              exact ⟨stack.size, cevs ++ tevs ++ devs ++ [Event.stackFree stack.size],
                by simp [Context.spawn, hp, hs, hcf, hcfg, hct, hd], htail⟩
            | panicked m =>
              right
              exact ⟨stack.size, cevs ++ tevs ++ devs ++ [Event.stackFree stack.size],
                by simp [Context.spawn, hp, hs, hcf, hcfg, hct, hd], htail⟩

/-- C1: whenever `Context::spawn` reaches the `clone` call, the flag
set it passes is exactly the union of each spec's clone bit, plus
`CLONE_VM` iff the sharing mode is `Shared`, and the child-termination
signal passed alongside is `SIGCHLD`; the flag set is invariant under
reordering of the namespace specs. -/
theorem spawn_clone_flags (env : SpawnEnv) (c : Context) (fl : CloneFlags)
    (sig : Option Signal)
    (h : Event.cloneCall fl sig ∈ (c.spawn env).2) :
    (∀ f, f ∈ fl ↔
        (∃ s ∈ c.namespaces, ∃ b, s.cloneFlag = some b ∧ f ∈ b) ∨
        (f = CloneFlag.vm ∧ c.shared = Share.Shared)) ∧
    sig = some Signal.SIGCHLD ∧
    (∀ l2, List.Perm c.namespaces l2 →
       Context.spawnFlags { c with namespaces := l2 } = c.spawnFlags) := by
  have key : fl = c.spawnFlags ∧ sig = some Signal.SIGCHLD := by
    rcases spawn_trace_shape env c with hsh | ⟨sz, tail, hsh, htail⟩
    · rw [hsh] at h
      have h2 : Event.cloneCall fl sig
          ∈ (runPhase SpecModel.prepare Event.prepare 0 c.namespaces).2 := by
        simpa [Context.prepare] using h
      rcases mem_runPhase_events h2 with ⟨j, hj⟩
      simp at hj
    · rw [hsh] at h
      simp only [List.mem_append, List.mem_cons] at h
      rcases h with h | h | h | h
      · have h2 : Event.cloneCall fl sig
            ∈ (runPhase SpecModel.prepare Event.prepare 0 c.namespaces).2 := by
          simpa [Context.prepare] using h
        rcases mem_runPhase_events h2 with ⟨j, hj⟩
        simp at hj
      · simp at h
      · simp only [Event.cloneCall.injEq] at h
        exact h
      · rcases htail _ h with ⟨j, hj⟩ | ⟨j, hj⟩ | hj | hj | hj | hj
        all_goals simp at hj
  obtain ⟨hfl, hsig⟩ := key
  subst hfl
  subst hsig
  refine ⟨fun f => mem_spawnFlags c f, rfl, ?_⟩
  intro l2 hperm
  apply Finset.ext
  intro f
  rw [mem_spawnFlags, mem_spawnFlags]
  constructor
  · rintro (⟨s, hs, hrest⟩ | hq)
    · exact Or.inl ⟨s, hperm.mem_iff.mpr hs, hrest⟩
    · exact Or.inr hq
  · rintro (⟨s, hs, hrest⟩ | hq)
    · exact Or.inl ⟨s, hperm.mem_iff.mp hs, hrest⟩
    · exact Or.inr hq

/-- C1 witness: the flag characterization applied to a context with a
`NEWUSER` spec and an inert spec in shared mode, whose spawn trace
under an all-success environment does contain the clone call. -/
theorem spawn_clone_flags_witness :
    CloneFlag.vm ∈ ctxC1.spawnFlags ∧ CloneFlag.newuser ∈ ctxC1.spawnFlags := by
  have hmem : Event.cloneCall ctxC1.spawnFlags (some Signal.SIGCHLD)
      ∈ (ctxC1.spawn envOk).2 := by decide
  have h := spawn_clone_flags envOk ctxC1 ctxC1.spawnFlags (some Signal.SIGCHLD) hmem
  refine ⟨?_, ?_⟩
  · exact (h.1 CloneFlag.vm).mpr (Or.inr ⟨rfl, rfl⟩)
  · exact (h.1 CloneFlag.newuser).mpr
      (Or.inl ⟨specUser, by decide, {CloneFlag.newuser}, rfl, by decide⟩)

/-- C6: `Context::spawn` runs `prepare` on every spec, in insertion
order, before any other spawn step (the whole trace extends the prepare
trace); and if some spec's `prepare` fails, `spawn` returns exactly
that error and the trace consists of prepare events only — no stack is
allocated, `clone` is never invoked, no child exists. -/
theorem spawn_prepare_first (env : SpawnEnv) (c : Context) :
    (∃ rest, (c.spawn env).2 = c.prepare.2 ++ rest) ∧
    c.prepare.2
      = (List.range (phaseLen SpecModel.prepare c.namespaces)).map Event.prepare ∧
    (∀ e, c.prepare.1 = some e →
       c.spawn env = (RunResult.err e, c.prepare.2) ∧
       ∀ ev ∈ (c.spawn env).2, ∃ i, ev = Event.prepare i) := by
  refine ⟨?_, ?_, ?_⟩
  · rcases spawn_trace_shape env c with hsh | ⟨sz, tail, hsh, _⟩
    · exact ⟨[], by simpa using hsh⟩
    · exact ⟨_, hsh⟩
  · rw [Context.prepare, runPhase_events]
    simp
  · intro e he
    have heq := spawn_prepare_fail_eq env c e he
    refine ⟨heq, ?_⟩
    intro ev hev
    rw [heq] at hev
    simp only at hev
    exact mem_runPhase_events (by simpa [Context.prepare] using hev)

/-- C6 witness: a context whose second spec's `prepare` fails with
`custom 7`; `spawn` returns that exact error and a trace of the two
prepare events only. -/
theorem spawn_prepare_first_witness :
    ctxC6.spawn envOk
      = (RunResult.err (Err.custom 7), [Event.prepare 0, Event.prepare 1]) := by
  have h := (spawn_prepare_first envOk ctxC6).2.2 (Err.custom 7) (by decide)
  have h2 : ctxC6.prepare.2 = [Event.prepare 0, Event.prepare 1] := by decide
  rw [h.1, h2]

/-- C3: what the code actually does when an external configurator fails
after `clone`: with a single spec whose external configure fails
(`custom 3`) and every system call succeeding, `spawn` returns the
error and the trace shows the stack being unmapped — but contains NO
`SIGCONT`, no wait for the stopped child, and no reap: the child is
left stopped while its stack is freed, contrary to the claim's
resume-wait-unmap sequence. -/
theorem spawn_ext_config_failure_behavior :
    ((ctxC3.spawn envOk).1 = RunResult.err (Err.custom 3)) ∧
    ((ctxC3.spawn envOk).2
       = [Event.prepare 0, Event.stackAlloc 4096,
          Event.cloneCall ctxC3.spawnFlags (some Signal.SIGCHLD),
          Event.extConfigure 0, Event.stackFree 4096]) ∧
    (Event.kill Signal.SIGCONT ∉ (ctxC3.spawn envOk).2) ∧
    (Event.waitStopped ∉ (ctxC3.spawn envOk).2) ∧
    (Event.waitReap ∉ (ctxC3.spawn envOk).2) := by
  decide

end Isolate
